import Mathlib

/-!
Verification of the kes deployment CLI's configuration-resolution pipeline.

The development shallowly embeds the JavaScript sources:
* `src/config.js` (class `Config`: `parseConfig`, `configureLambda`,
  `configureApiGateway`, `mustacheRender`),
* `src/lambda.js` (class `Lambda`: `zipLambda`, `zipAndUploadLambda`, `process`),
* `src/kes.js` (class `Kes`: `cloudFormation`),
* `index.js` (`buildCf`) and the CLI wiring (`bin/cli.js`).

YAML/JSON documents are modelled by the inductive type `Value`; the lodash
`merge` used for layer merging is `mergeV`; Mustache variable interpolation
(with `Mustache.escape` set to the identity, as `parseConfig` does) is
`renderValue`.
-/

namespace Kes

deriving instance DecidableEq for Except

/-- A JSON/YAML-like document value: the data manipulated by `config.js`. -/
inductive Value where
  | vnull : Value
  | vbool : Bool → Value
  | vnum : Int → Value
  | vstr : String → Value
  | varr : List Value → Value
  | vobj : List (String × Value) → Value
  deriving Repr

mutual

/-- Boolean equality on values (structural). -/
def Value.beq : Value → Value → Bool
  | .vnull, .vnull => true
  | .vbool a, .vbool b => a == b
  | .vnum a, .vnum b => a == b
  | .vstr a, .vstr b => a == b
  | .varr a, .varr b => Value.beqList a b
  | .vobj a, .vobj b => Value.beqObj a b
  | _, _ => false

/-- Boolean equality on value lists. -/
def Value.beqList : List Value → List Value → Bool
  | [], [] => true
  | a :: as_, b :: bs => Value.beq a b && Value.beqList as_ bs
  | _, _ => false

/-- Boolean equality on key/value lists. -/
def Value.beqObj : List (String × Value) → List (String × Value) → Bool
  | [], [] => true
  | (ka, va) :: as_, (kb, vb) :: bs => ka == kb && Value.beq va vb && Value.beqObj as_ bs
  | _, _ => false

end

instance : BEq Value := ⟨Value.beq⟩

mutual

/-- Decidable equality on values. -/
def Value.decEq : (a b : Value) → Decidable (a = b)
  | .vnull, .vnull => isTrue rfl
  | .vbool a, .vbool b =>
      if h : a = b then isTrue (by rw [h]) else isFalse (by intro hc; cases hc; exact h rfl)
  | .vnum a, .vnum b =>
      if h : a = b then isTrue (by rw [h]) else isFalse (by intro hc; cases hc; exact h rfl)
  | .vstr a, .vstr b =>
      if h : a = b then isTrue (by rw [h]) else isFalse (by intro hc; cases hc; exact h rfl)
  | .varr a, .varr b =>
      match Value.decEqList a b with
      | isTrue h => isTrue (by rw [h])
      | isFalse h => isFalse (by intro hc; cases hc; exact h rfl)
  | .vobj a, .vobj b =>
      match Value.decEqObj a b with
      | isTrue h => isTrue (by rw [h])
      | isFalse h => isFalse (by intro hc; cases hc; exact h rfl)
  | .vnull, .vbool _ => isFalse fun h => Value.noConfusion h
  | .vnull, .vnum _ => isFalse fun h => Value.noConfusion h
  | .vnull, .vstr _ => isFalse fun h => Value.noConfusion h
  | .vnull, .varr _ => isFalse fun h => Value.noConfusion h
  | .vnull, .vobj _ => isFalse fun h => Value.noConfusion h
  | .vbool _, .vnull => isFalse fun h => Value.noConfusion h
  | .vbool _, .vnum _ => isFalse fun h => Value.noConfusion h
  | .vbool _, .vstr _ => isFalse fun h => Value.noConfusion h
  | .vbool _, .varr _ => isFalse fun h => Value.noConfusion h
  | .vbool _, .vobj _ => isFalse fun h => Value.noConfusion h
  | .vnum _, .vnull => isFalse fun h => Value.noConfusion h
  | .vnum _, .vbool _ => isFalse fun h => Value.noConfusion h
  | .vnum _, .vstr _ => isFalse fun h => Value.noConfusion h
  | .vnum _, .varr _ => isFalse fun h => Value.noConfusion h
  | .vnum _, .vobj _ => isFalse fun h => Value.noConfusion h
  | .vstr _, .vnull => isFalse fun h => Value.noConfusion h
  | .vstr _, .vbool _ => isFalse fun h => Value.noConfusion h
  | .vstr _, .vnum _ => isFalse fun h => Value.noConfusion h
  | .vstr _, .varr _ => isFalse fun h => Value.noConfusion h
  | .vstr _, .vobj _ => isFalse fun h => Value.noConfusion h
  | .varr _, .vnull => isFalse fun h => Value.noConfusion h
  | .varr _, .vbool _ => isFalse fun h => Value.noConfusion h
  | .varr _, .vnum _ => isFalse fun h => Value.noConfusion h
  | .varr _, .vstr _ => isFalse fun h => Value.noConfusion h
  | .varr _, .vobj _ => isFalse fun h => Value.noConfusion h
  | .vobj _, .vnull => isFalse fun h => Value.noConfusion h
  | .vobj _, .vbool _ => isFalse fun h => Value.noConfusion h
  | .vobj _, .vnum _ => isFalse fun h => Value.noConfusion h
  | .vobj _, .vstr _ => isFalse fun h => Value.noConfusion h
  | .vobj _, .varr _ => isFalse fun h => Value.noConfusion h

/-- Decidable equality on value lists. -/
def Value.decEqList : (a b : List Value) → Decidable (a = b)
  | [], [] => isTrue rfl
  | [], _ :: _ => isFalse fun h => List.noConfusion h
  | _ :: _, [] => isFalse fun h => List.noConfusion h
  | a :: as_, b :: bs =>
      match Value.decEq a b with
      | isFalse h1 => isFalse (by intro h; cases h; exact h1 rfl)
      | isTrue h1 =>
        match Value.decEqList as_ bs with
        | isFalse h2 => isFalse (by intro h; cases h; exact h2 rfl)
        | isTrue h2 => isTrue (by rw [h1, h2])

/-- Decidable equality on key/value lists. -/
def Value.decEqObj : (a b : List (String × Value)) → Decidable (a = b)
  | [], [] => isTrue rfl
  | [], _ :: _ => isFalse fun h => List.noConfusion h
  | _ :: _, [] => isFalse fun h => List.noConfusion h
  | (ka, va) :: as_, (kb, vb) :: bs =>
      if hk : ka = kb then
        match Value.decEq va vb with
        | isFalse h1 => isFalse (by intro h; cases h; exact h1 rfl)
        | isTrue h1 =>
          match Value.decEqObj as_ bs with
          | isFalse h2 => isFalse (by intro h; cases h; exact h2 rfl)
          | isTrue h2 => isTrue (by rw [hk, h1, h2])
      else isFalse (by intro h; cases h; exact hk rfl)

end

instance : DecidableEq Value := Value.decEq

/-- Generic first-match lookup in an association list (JS property read). -/
def lookupAssoc {α : Type} (k : String) : List (String × α) → Option α
  | [] => none
  | (k', v) :: rest => if k' = k then some v else lookupAssoc k rest

/-- Generic JS property write on an association list: replace the value in
place if the key exists (keeping its position), otherwise append the key at
the end. -/
def insertAssoc {α : Type} : List (String × α) → String → α → List (String × α)
  | [], k, x => [(k, x)]
  | (k', v) :: rest, k, x =>
      if k' = k then (k, x) :: rest else (k', v) :: insertAssoc rest k x

/-- Property read on a JS object's key/value list. -/
def lookupV (k : String) (l : List (String × Value)) : Option Value :=
  lookupAssoc k l

/-- Property write on a JS object's key/value list. -/
def insertKV (l : List (String × Value)) (k : String) (x : Value) :
    List (String × Value) :=
  insertAssoc l k x

/-- Property access `v.k` on a value (only objects have properties here). -/
def getField (v : Value) (k : String) : Option Value :=
  match v with
  | .vobj kvs => lookupV k kvs
  | _ => none

/-- Property assignment `v.k = x` on an object value; other values unchanged. -/
def setField (v : Value) (k : String) (x : Value) : Value :=
  match v with
  | .vobj kvs => .vobj (insertKV kvs k x)
  | _ => v

/-- lodash `has(v, k)`: the object owns the key (regardless of its value). -/
def hasKey (v : Value) (k : String) : Bool :=
  match getField v k with
  | some _ => true
  | none => false

/-- JS truthiness of a value: `null`, `false`, `0` and `""` are falsy;
objects and arrays (even empty) are truthy. -/
def truthy : Value → Bool
  | .vnull => false
  | .vbool b => b
  | .vnum n => n != 0
  | .vstr s => s ≠ ""
  | .varr _ => true
  | .vobj _ => true

/-- Whether `sub` occurs as a contiguous substring of `l`. -/
def hasSubstr : List Char → List Char → Bool
  | [], sub => sub.isEmpty
  | c :: t, sub => sub.isPrefixOf (c :: t) || hasSubstr t sub

/-- JS `String.prototype.includes`, used by the error filters in `kes.js`. -/
def strIncludes (s sub : String) : Bool := hasSubstr s.data sub.data

/-- A value found by `lookupAssoc` is structurally smaller than the list
holding it. -/
theorem sizeOf_lookupAssoc : ∀ (l : List (String × Value)) (k : String) (v : Value),
    lookupAssoc k l = some v → sizeOf v < sizeOf l
  | [], _, _, h => by simp [lookupAssoc] at h
  | (k', w) :: rest, k, v, h => by
      simp only [lookupAssoc] at h
      by_cases hk : k' = k
      · rw [if_pos hk] at h
        cases h
        simp only [List.cons.sizeOf_spec, Prod.mk.sizeOf_spec]
        omega
      · rw [if_neg hk] at h
        have := sizeOf_lookupAssoc rest k v h
        simp only [List.cons.sizeOf_spec]
        omega

/-- A value found by `lookupV` is structurally smaller than the list holding it. -/
theorem sizeOf_lookupV (l : List (String × Value)) (k : String) (v : Value)
    (h : lookupV k l = some v) : sizeOf v < sizeOf l :=
  sizeOf_lookupAssoc l k v h

/-- Numeric value of a decimal digit string. -/
def digitsVal (l : List Char) : Nat :=
  l.foldl (fun n c => n * 10 + (c.toNat - '0'.toNat)) 0

/-- A canonical JS array-index key (`"0"`, `"1"`, `"17"`, ... — all digits, no
leading zero): the object keys that address array positions when lodash
merges an object source into an array destination.  Keys such as `"01"`
become plain (non-index) array properties instead. -/
def parseIndexKey (k : String) : Option Nat :=
  match k.data with
  | [] => none
  | ['0'] => some 0
  | c :: rest =>
      if c ≠ '0' ∧ (c :: rest).all Char.isDigit then some (digitsVal (c :: rest))
      else none

/-- First value of an object whose key addresses array index `i`. -/
def lookupIndex (i : Nat) : List (String × Value) → Option Value
  | [] => none
  | (k, v) :: rest => if parseIndexKey k = some i then some v else lookupIndex i rest

/-- One past the largest array index addressed by an object's keys. -/
def maxIndexBound (s : List (String × Value)) : Nat :=
  s.foldl (fun m p =>
    match parseIndexKey p.1 with
    | some i => max m (i + 1)
    | none => m) 0

/-- Array positions past the destination's length that an object source
grafts onto it: the source's value where a key addresses the position,
otherwise a hole, which serializes as `null` in the JSON round trip
`mustacheRender` performs. -/
def graftTail (s : List (String × Value)) (start stop : Nat) : List Value :=
  (List.range' start (stop - start)).map
    (fun i =>
      match lookupIndex i s with
      | some sv => sv
      | none => .vnull)

/-- A value found by `lookupIndex` is structurally smaller than the list
holding it. -/
theorem sizeOf_lookupIndex : ∀ (l : List (String × Value)) (i : Nat) (v : Value),
    lookupIndex i l = some v → sizeOf v < sizeOf l
  | [], _, _, h => by simp [lookupIndex] at h
  | (k, w) :: rest, i, v, h => by
      simp only [lookupIndex] at h
      by_cases hk : parseIndexKey k = some i
      · rw [if_pos hk] at h
        cases h
        simp only [List.cons.sizeOf_spec, Prod.mk.sizeOf_spec]
        omega
      · rw [if_neg hk] at h
        have := sizeOf_lookupIndex rest i v h
        simp only [List.cons.sizeOf_spec]
        omega

mutual

/-- lodash `merge(d, s)` as used by `parseConfig` for layer merging and scope
construction: recursive key-wise merge for two objects (destination key order
kept, new source keys appended); recursive index-wise merge for two arrays
(destination elements beyond the source's length kept); a plain-object source
over an array destination is grafted key-wise INTO the array (index keys
merge into the matching positions, the array survives; its non-index keys
become non-index array properties, which the `JSON.stringify` in
`mustacheRender` drops, so the model keeps the JSON view); any other
combination assigns the source value.  A JS array-like object destination
(a mapping carrying a numeric `length` key) is treated as a plain mapping
here. -/
def mergeV : Value → Value → Value
  | .vobj d, .vobj s => .vobj (mergeObj d s ++ s.filter (fun p => (lookupV p.1 d).isNone))
  | .varr d, .varr s => .varr (mergeArr d s)
  | .varr d, .vobj s =>
      .varr (mergeArrObjPrefix s 0 d ++
             graftTail s d.length (max d.length (maxIndexBound s)))
  | _, s => s
termination_by d s => sizeOf d + sizeOf s

/-- Key-wise part of `mergeV` over the destination's keys. -/
def mergeObj : List (String × Value) → List (String × Value) → List (String × Value)
  | [], _ => []
  | (k, v) :: ds, s =>
      (k, match h : lookupV k s with
          | some sv => mergeV v sv
          | none => v) :: mergeObj ds s
termination_by d s => sizeOf d + sizeOf s
decreasing_by
  · have := sizeOf_lookupV s k sv h
    simp only [List.cons.sizeOf_spec, Prod.mk.sizeOf_spec]
    omega
  · simp only [List.cons.sizeOf_spec, Prod.mk.sizeOf_spec]
    omega

/-- Index-wise part of `mergeV` over two arrays. -/
def mergeArr : List Value → List Value → List Value
  | d, [] => d
  | [], s => s
  | dv :: ds, sv :: ss => mergeV dv sv :: mergeArr ds ss
termination_by d s => sizeOf d + sizeOf s

/-- Graft of an object source into the existing positions of an array
destination: the element at position `i` (counting from `i0`) is merged with
the source's value under the key addressing `i`, when there is one. -/
def mergeArrObjPrefix (s : List (String × Value)) (i : Nat) : List Value → List Value
  | [] => []
  | dv :: ds =>
      (match h : lookupIndex i s with
       | some sv => mergeV dv sv
       | none => dv) :: mergeArrObjPrefix s (i + 1) ds
termination_by d => sizeOf s + sizeOf d
decreasing_by
  · have := sizeOf_lookupIndex s i sv h
    simp only [List.cons.sizeOf_spec]
    omega
  · simp only [List.cons.sizeOf_spec]
    omega

end

/-! Mustache interpolation, as used by `Config.mustacheRender`: the config is
`JSON.stringify`-ed, rendered with `Mustache.render` (with `Mustache.escape`
set to the identity by `parseConfig`), and `JSON.parse`-d back.  We model the
composite directly on the tree: every string (leaves and object keys, both of
which appear in the serialized JSON text) has its `\x7b\x7bname\x7d\x7d` tags
replaced.  Only variable tags are modelled, which is all the kes config files
use; a tag left unclosed (where Mustache would raise) is kept as literal
text. -/

mutual

/-- JS string coercion `String(v)` / template-literal interpolation of a value
(arrays join their elements with commas, plain objects print as
`[object Object]`). -/
def jsStringOf : Value → String
  | .vnull => "null"
  | .vbool b => if b then "true" else "false"
  | .vnum n => toString n
  | .vstr s => s
  | .varr l => jsStringOfArr l
  | .vobj _ => "[object Object]"

/-- JS `Array.prototype.toString`: elements joined with commas, with `null`
elements printing as empty. -/
def jsStringOfArr : List Value → String
  | [] => ""
  | [.vnull] => ""
  | [v] => jsStringOf v
  | .vnull :: rest => "," ++ jsStringOfArr rest
  | v :: rest => jsStringOf v ++ "," ++ jsStringOfArr rest

end

/-- The text Mustache interpolates for a looked-up value: `null` renders
empty, anything else via JS string coercion. -/
def mustacheStrOf : Value → String
  | .vnull => ""
  | v => jsStringOf v

/-- Walk a dotted path through nested objects (Mustache dotted-name lookup). -/
def lookupPath : Value → List String → Option Value
  | scope, [] => some scope
  | scope, k :: rest =>
      match scope with
      | .vobj kvs =>
          match lookupV k kvs with
          | some v => lookupPath v rest
          | none => none
      | _ => none

/-- Strip leading and trailing whitespace (Mustache trims tag contents). -/
def trimChars (l : List Char) : List Char :=
  ((l.dropWhile Char.isWhitespace).reverse.dropWhile Char.isWhitespace).reverse

/-- Split a name on the dots (JS `name.split('.')`). -/
def splitDots : List Char → List (List Char)
  | [] => [[]]
  | c :: rest =>
      if c = '.' then [] :: splitDots rest
      else
        match splitDots rest with
        | [] => [[c]]
        | p :: ps => (c :: p) :: ps

/-- Mustache variable lookup: the tag content is trimmed; `.` is the implicit
current context; otherwise the name is split on dots and walked through the
scope. -/
def mustacheLookup (scope : Value) (name : List Char) : Option Value :=
  let nm := trimChars name
  if nm = ['.'] then some scope
  else lookupPath scope ((splitDots nm).map String.mk)

/-- Text substituted for one `\x7b\x7bname\x7d\x7d` tag: the looked-up value's
text, or the empty string when the name does not resolve in the scope. -/
def tagSubst (scope : Value) (name : List Char) : List Char :=
  match mustacheLookup scope name with
  | some v => (mustacheStrOf v).data
  | none => []

mutual

/-- Render template text outside a tag: copy characters through until an
opening `\x7b\x7b`. -/
def renderText (scope : Value) : List Char → List Char
  | [] => []
  | [c] => [c]
  | c1 :: c2 :: rest =>
      if c1 = '{' ∧ c2 = '{' then renderTag scope [] rest
      else c1 :: renderText scope (c2 :: rest)

/-- Render the inside of a tag: collect the name until the closing
`\x7d\x7d`, then substitute; an unclosed tag (where Mustache would raise) is
kept as literal text. -/
def renderTag (scope : Value) (acc : List Char) : List Char → List Char
  | [] => '{' :: '{' :: acc.reverse
  | [c] => '{' :: '{' :: (acc.reverse ++ [c])
  | c1 :: c2 :: rest =>
      if c1 = '}' ∧ c2 = '}' then tagSubst scope acc.reverse ++ renderText scope rest
      else renderTag scope (c1 :: acc) (c2 :: rest)

end

/-- Render a template string (wrapper over `renderText`). -/
def renderString (scope : Value) (s : String) : String :=
  String.mk (renderText scope s.data)

mutual

/-- One Mustache pass over the whole config tree
(`Config.mustacheRender(obj, values)` = stringify, render, reparse): every
string leaf and every object key of `obj` — both appear as text in the
serialized JSON — is rendered against `values`. -/
def renderValue (scope : Value) : Value → Value
  | .vstr s => .vstr (renderString scope s)
  | .varr l => .varr (renderListV scope l)
  | .vobj kvs => .vobj (renderObjV scope kvs)
  | v => v

/-- Render every element of an array. -/
def renderListV (scope : Value) : List Value → List Value
  | [] => []
  | v :: rest => renderValue scope v :: renderListV scope rest

/-- Render keys and values of an object. -/
def renderObjV (scope : Value) : List (String × Value) → List (String × Value)
  | [] => []
  | (k, v) :: rest => (renderString scope k, renderValue scope v) :: renderObjV scope rest

end

/-- The scope `parseConfig` renders against:
`merge(\x7b\x7d, config, this.envs)`. -/
def renderScope (config : Value) (envs : List (String × Value)) : Value :=
  mergeV (mergeV (.vobj []) config) (.vobj envs)

/-- One substitution pass of `parseConfig`:
`config = this.mustacheRender(config, merge(\x7b\x7d, config, this.envs))`. -/
def substitutePass (envs : List (String × Value)) (config : Value) : Value :=
  renderValue (renderScope config envs) config

/-- Both substitution passes of `parseConfig` (the render is deliberately run
twice so that values pulled out of included child yml files are themselves
rendered). -/
def substituteTwice (envs : List (String × Value)) (config : Value) : Value :=
  substitutePass envs (substitutePass envs config)

/-! Embedding of `Config.configureLambda` (config.js lines 241-279). -/

/-- JS template-literal interpolation of a possibly missing property
(a missing property prints as `undefined`). -/
def jsTemplateStr : Option Value → String
  | none => "undefined"
  | some v => jsStringOf v

/-- Defaults applied by `configureLambda` to a single lambda object:
memory 1024 and timeout 300 when absent, `lambdaName` stamped on each entry of
a `services` array, an empty `envs` object when absent, and
`fullName = stackName-name`.  The `name` field is already present (set from
the mapping key when `lambdas` is a mapping). -/
def configureLambdaOne (stackName : String) (lam : Value) : Value :=
  let lam := if hasKey lam "memory" then lam else setField lam "memory" (.vnum 1024)
  let lam := if hasKey lam "timeout" then lam else setField lam "timeout" (.vnum 300)
  let lam :=
    match getField lam "services" with
    | some (.varr svcs) =>
        setField lam "services"
          (.varr (svcs.map (fun s => setField s "lambdaName" ((getField lam "name").getD .vnull))))
    | _ => lam
  let lam := if hasKey lam "envs" then lam else setField lam "envs" (.vobj [])
  setField lam "fullName" (.vstr (stackName ++ "-" ++ jsTemplateStr (getField lam "name")))

/-- `Config.configureLambda(config)`: accepts `lambdas` as an array of
objects or as a name-keyed mapping (in which case each value gets its key as
`name`), and applies `configureLambdaOne` to every lambda.  The source
mutates the lambda objects in place, so the mapping shape is preserved. -/
def configureLambda (config : Value) : Value :=
  match getField config "lambdas" with
  | some lv =>
      if truthy lv then
        let stackName := jsTemplateStr (getField config "stackName")
        match lv with
        | .varr l => setField config "lambdas" (.varr (l.map (configureLambdaOne stackName)))
        | .vobj kvs =>
            setField config "lambdas"
              (.vobj (kvs.map (fun p =>
                (p.1, configureLambdaOne stackName (setField p.2 "name" (.vstr p.1))))))
        | _ => config
      else config
  | none => config

/-! Embedding of `Config.configureApiGateway` (config.js lines 88-229). -/

/-- lodash `upperFirst`: first character upper-cased, rest untouched. -/
def upperFirst (s : String) : String :=
  match s.data with
  | [] => ""
  | c :: cs => String.mk (c.toUpper :: cs)

/-- lodash `capitalize`: first character upper-cased, the rest lower-cased. -/
def capitalize (s : String) : String :=
  match s.data with
  | [] => ""
  | c :: cs => String.mk (c.toUpper :: cs.map Char.toLower)

/-- JS `String.prototype.toUpperCase` (ASCII). -/
def toUpperAll (s : String) : String := String.mk (s.data.map Char.toUpper)

/-- A JS word character (regex `\w`): letter, digit or underscore. -/
def isWordChar (c : Char) : Bool := c.isAlphanum || c = '_'

/-- JS `replace(segment, /\W/g, '')`: drop every non-word character. -/
def removeNonWordChars (s : String) : String := String.mk (s.data.filter isWordChar)

/-- JS `String.prototype.split('/')` on a path. -/
def splitSlashes (l : List Char) : List String :=
  (go l).map String.mk
where
  go : List Char → List (List Char)
    | [] => [[]]
    | c :: rest =>
        if c = '/' then [] :: go rest
        else
          match go rest with
          | [] => [[c]]
          | p :: ps => (c :: p) :: ps

/-- Canonical name of one path segment (config.js lines 131-141): a
`\x7bvariable\x7d` placeholder keeps its word characters and gains the `Var`
suffix; either way `upperFirst` is applied to the result. -/
def segmentName (segment : String) : String :=
  let name := if segment.data.head? = some '{' then removeNonWordChars segment ++ "Var" else segment
  upperFirst name

/-- String coercion lodash applies inside `capitalize`
(`undefined`/`null` become the empty string). -/
def lodashStr : Option Value → String
  | none => ""
  | some .vnull => ""
  | some v => jsStringOf v

/-- Normalization shared by `configureLambda` and `configureApiGateway`
(config.js lines 105-112 and 244-251): `lambdas` given as an array is used as
is; a name-keyed mapping becomes the list of values with the key stamped on
each as `name`. -/
def normalizedLambdas : Value → List Value
  | .varr l => l
  | .vobj kvs => kvs.map (fun p => setField p.2 "name" (.vstr p.1))
  | _ => []

/-- `Object.assign(\x7b\x7d, api, methodObject)`: the api object's fields with
the method object's fields written over them. -/
def objAssign (base : Value) (kvs : List (String × Value)) : Value :=
  kvs.foldl (fun b p => setField b p.1 p.2) base

/-- Parent reference of a path's first segment (config.js lines 147-154). -/
def rootParents (apiStr : String) : List Value :=
  [.vstr "Fn::GetAtt:", .vstr ("- " ++ apiStr ++ "RestApi"), .vstr "- RootResourceId"]

/-- One `apiResources` entry (config.js lines 167-173). -/
def resourceObj (key segment : String) (parents : List Value) (firstParent : Bool)
    (apiRaw : Value) : Value :=
  .vobj [("name", .vstr ("ApiGateWayResource" ++ key)),
         ("pathPart", .vstr segment),
         ("parents", .varr parents),
         ("firstParent", .vbool firstParent),
         ("api", apiRaw)]

/-- The segment loop of `configureApiGateway` (config.js lines 131-174):
walks the path segments keeping the accumulated canonical names
(`segmentNames`), and records each resource under the concatenation of the
canonical names up to and including the segment, so shared leading segments
land on the same key.  Returns the final `segmentNames` and the updated
resource map. -/
def addSegments (apiStr : String) (apiRaw : Value) (acc : List String) :
    List String → List (String × Value) → List String × List (String × Value)
  | [], res => (acc, res)
  | seg :: rest, res =>
      let n := segmentName seg
      let acc' := acc ++ [n]
      let key := String.join acc'
      let parents :=
        if acc.isEmpty then rootParents apiStr
        else [.vstr ("Ref: ApiGateWayResource" ++ String.join acc)]
      addSegments apiStr apiRaw acc' rest
        (insertKV res key (resourceObj key seg parents acc.isEmpty apiRaw))

/-- The state the `configureApiGateway` loops thread: the local variables
`apiMethods`, `apiResources`, `apiMethodsOptions` and `apiDependencies`
(the latter three are JS objects, kept here as insertion-ordered association
lists). -/
structure GwState where
  apiMethods : List Value
  apiResources : List (String × Value)
  apiMethodsOptions : List (String × Value)
  apiDependencies : List (String × List Value)
  deriving Repr, DecidableEq

/-- Processing of one route (`api` entry of a lambda's `apiGateway` array,
config.js lines 118-213): record the path's resources, append the method
object, append the method to its api group's dependency list (a missing api
group is the error path: `undefined.push` raises), and record the CORS
options entry when `cors` is truthy. -/
def processRoute (lname : Value) (st : GwState) (av : Value) : Except String GwState :=
  let pathStr := match getField av "path" with | some (.vstr p) => p | _ => ""
  let segments := splitSlashes pathStr.data
  let apiStr := jsTemplateStr (getField av "api")
  let apiRaw := (getField av "api").getD .vnull
  let (segNames, res') := addSegments apiStr apiRaw [] segments st.apiResources
  let nameJoin := String.join segNames
  let methodCap := capitalize (lodashStr (getField av "method"))
  let methodName := "ApiGatewayMethod" ++ nameJoin ++ capitalize methodCap
  let corsVal :=
    match getField av "cors" with
    | some c => if truthy c then c else .vbool false
    | none => .vbool false
  let methodObject : List (String × Value) :=
    [("name", .vstr methodName),
     ("method", .vstr (toUpperAll methodCap)),
     ("cors", corsVal),
     ("resource", .vstr ("ApiGateWayResource" ++ nameJoin)),
     ("lambda", lname),
     ("api", apiRaw)]
  let methods' := st.apiMethods ++ [objAssign av methodObject]
  match lookupAssoc apiStr st.apiDependencies with
  | none => .error (apiStr ++ " is not defined")
  | some deps =>
      let deps' := insertAssoc st.apiDependencies apiStr
        (deps ++ [.vobj [("name", .vstr methodName)]])
      let opts' :=
        if truthy ((getField av "cors").getD .vnull) then
          insertAssoc st.apiMethodsOptions nameJoin
            (.vobj [("name", .vstr ("ApiGatewayMethod" ++ nameJoin ++ "Options")),
                    ("resource", .vstr ("ApiGateWayResource" ++ nameJoin)),
                    ("api", apiRaw)])
        else st.apiMethodsOptions
      .ok { apiMethods := methods', apiResources := res',
            apiMethodsOptions := opts', apiDependencies := deps' }

/-- Fold a fallible step over a list, stopping at the first error. -/
def foldlExcept {α β : Type} (f : α → β → Except String α) : α → List β → Except String α
  | a, [] => .ok a
  | a, b :: bs =>
      match f a b with
      | .error e => .error e
      | .ok a' => foldlExcept f a' bs

/-- Routes of one lambda: only lambdas owning an `apiGateway` key contribute. -/
def processLambdaRoutes (st : GwState) (lam : Value) : Except String GwState :=
  if hasKey lam "apiGateway" then
    match getField lam "apiGateway" with
    | some (.varr apis) => foldlExcept (processRoute ((getField lam "name").getD .vnull)) st apis
    | _ => .ok st
  else .ok st

/-- What `configureApiGateway` hands back to `parseConfig`: either the
`Config` class object itself — the target of `Object.assign(Config, ...)`,
whose own enumerable properties are the class-level statics — or, when the
config has no `apis` key, the untouched `config` argument. -/
inductive GwReturn where
  | classObj (props : List (String × Value)) : GwReturn
  | configObj : GwReturn
  deriving Repr, DecidableEq

/-- `Object.assign(Config, \x7bapiMethods, apiResources: values(...), ...\x7d)`
(config.js lines 217-225): writes the four derived collections onto the
class-level property list, overwriting any previous values. -/
def assignStatics (statics : List (String × Value)) (st : GwState) : List (String × Value) :=
  let s := insertKV statics "apiMethods" (.varr st.apiMethods)
  let s := insertKV s "apiResources" (.varr (st.apiResources.map Prod.snd))
  let s := insertKV s "apiMethodsOptions" (.varr (st.apiMethodsOptions.map Prod.snd))
  insertKV s "apiDependencies"
    (.varr (st.apiDependencies.map (fun p => .vobj [("name", .vstr p.1), ("methods", .varr p.2)])))

/-- `Config.configureApiGateway(config)` (config.js lines 88-229), with the
class-level statics threaded explicitly: when `config.apis` is truthy the
derived collections are assigned onto the class and the class object is
returned; otherwise the statics are untouched and the config itself is
returned. -/
def configureApiGateway (statics : List (String × Value)) (config : Value) :
    Except String (List (String × Value) × GwReturn) :=
  match getField config "apis" with
  | some apis =>
      if truthy apis then
        let apisList := match apis with | .varr l => l | _ => []
        let deps0 := apisList.foldl
          (fun m a => insertAssoc m (jsTemplateStr (getField a "name")) []) []
        let st0 : GwState := ⟨[], [], [], deps0⟩
        let lams := normalizedLambdas ((getField config "lambdas").getD .vnull)
        match foldlExcept processLambdaRoutes st0 lams with
        | .error e => .error e
        | .ok st =>
            let statics' := assignStatics statics st
            .ok (statics', .classObj statics')
      else .ok (statics, .configObj)
  | none => .ok (statics, .configObj)

/-! Embedding of `Config.parseConfig` (config.js lines 303-337) from the
already-parsed YAML document on.  File reading, the yaml-files include schema
and the `.env` loading are I/O and enter only through the `parsedConfig` and
`envs` arguments. -/

/-- `parseConfig`: pick the `default` layer, attach the parent, merge the
selected deployment layer over it (a falsy or missing layer throws), run the
Mustache substitution twice, apply the `--stack` override, apply the lambda
defaults, and merge in what `configureApiGateway` returned (the class object
when `apis` is present, the config itself otherwise). -/
def parseConfigV (statics : List (String × Value)) (parsedConfig : Value)
    (deployment : String) (stackOpt : Option String) (parent : Option Value)
    (envs : List (String × Value)) :
    Except String (List (String × Value) × Value) :=
  let config0 := (getField parsedConfig "default").getD .vnull
  let config0 :=
    match parent with
    | some p => setField config0 "parent" p
    | none => config0
  if deployment ≠ "" ∧ truthy ((getField parsedConfig deployment).getD .vnull) then
    let config1 := mergeV config0 ((getField parsedConfig deployment).getD .vnull)
    let config2 := substituteTwice envs config1
    let config3 :=
      match stackOpt with
      | some s => setField config2 "stackName" (.vstr s)
      | none => config2
    let config4 := configureLambda config3
    match configureApiGateway statics config4 with
    | .error e => .error e
    | .ok (statics', ret) =>
        let final :=
          match ret with
          | .classObj props => mergeV config4 (.vobj props)
          | .configObj => mergeV config4 config4
        .ok (statics', final)
  else
    .error ("Deployment " ++ deployment ++ " was not found in the kes configuration file.")

/-! Embedding of `buildCf` (index.js lines 196-230) and the CLI wiring
(`kes.buildCf(options, cmd).then(r => kes.utils.success(r)).catch(e =>
kes.utils.failure(e))`, with `utils.success` = `process.exit(0)` and
`utils.failure` = log + `process.exit(1)`). -/

/-- The remote orchestration calls the deployment path can issue. -/
inductive RemoteCall where
  | describeStacks
  | updateStack
  | createStack
  | waitFor
  | describeStackEvents
  | deleteStack
  | validateTemplate
  | s3Upload
  deriving Repr, DecidableEq

/-- Observable outcome of one CLI invocation: the process exit code and the
remote orchestration calls issued. -/
structure CliOutcome where
  exitCode : Nat
  remoteCalls : List RemoteCall
  deriving Repr, DecidableEq

/-- `buildCf` then the CLI's then/catch: the `Config` constructor (which runs
`parseConfig`) is called inside try/catch before any `Kes` instance — and
hence any AWS client — exists; a resolution error rejects the returned
promise, `utils.failure` prints it and the process exits with code 1 having
issued no remote call.  `rest` abstracts the command dispatch that runs on a
successfully resolved config. -/
def buildCfRun (statics : List (String × Value)) (parsedConfig : Value)
    (deployment : String) (stackOpt : Option String) (parent : Option Value)
    (envs : List (String × Value)) (rest : Value → CliOutcome) : CliOutcome :=
  match parseConfigV statics parsedConfig deployment stackOpt parent envs with
  | .error _ => { exitCode := 1, remoteCalls := [] }
  | .ok (_, config) => rest config

/-! Embedding of lambda packaging (lambda.js: `zipLambda`, `updateGroup`,
`updateLambda`, `zipAndUploadLambda`, `process`).  The shell-computed source
hash (`getHash`: shasum over the files copied under
`dist/<folderName>`) is abstracted as a function of the source path and the
folder name, the only inputs that reach it. -/

/-- One lambda object as packaging sees it.  `localZip` models the JS `local`
property. -/
structure LambdaSpec where
  name : String
  fullName : String
  handler : String
  source : Option String
  s3SourceBucket : Option String
  s3SourceKey : Option String
  localZip : Option String
  remote : Option String
  bucket : Option String
  deriving Repr, DecidableEq

/-- The entry `updateGroup` stores in `this.grouped[source]`. -/
structure GroupEntry where
  localZip : String
  remote : String
  bucket : String
  deriving Repr, DecidableEq

/-- `utils.getZipName(handler)`: the handler text before the first dot. -/
def getZipName (handler : String) : String :=
  ((splitDots handler.data).headD []).foldr (fun c s => String.mk [c] ++ s) ""

/-- `zipAndUploadLambda` (lambda.js lines 641-655) with the `grouped` cache
threaded: a lambda whose `source` is already in the cache just copies the
cached local/remote/bucket locations (`updateLambda`); a new source is zipped
(`zipLambda`): its hash is computed from the copied source tree, the S3 key is
`<stack>/lambdas/<hash>/<folderName>.zip`, and the cache gains the entry
(`updateGroup`).  A lambda with `s3Source` instead just copies that
reference.  Upload itself is I/O and adds nothing to the lambda object. -/
def zipAndUploadOne (hashOf : String → String → String) (bucket stack : String)
    (grouped : List (String × GroupEntry)) (lam : LambdaSpec) :
    List (String × GroupEntry) × LambdaSpec :=
  match lam.source with
  | some src =>
      match lookupAssoc src grouped with
      | some g =>
          (grouped, { lam with localZip := some g.localZip,
                               remote := some g.remote, bucket := some g.bucket })
      | none =>
          let folderName := getZipName lam.handler
          let hash := hashOf src folderName
          let key := stack ++ "/lambdas/" ++ hash ++ "/" ++ folderName ++ ".zip"
          let localPath := ".kes/build/" ++ folderName ++ ".zip"
          let g : GroupEntry := ⟨localPath, key, bucket⟩
          (insertAssoc grouped src g,
           { lam with localZip := some g.localZip,
                      remote := some g.remote, bucket := some g.bucket })
  | none =>
      match lam.s3SourceKey, lam.s3SourceBucket with
      | some k, some b => (grouped, { lam with remote := some k, bucket := some b })
      | _, _ => (grouped, lam)

/-- `Lambda.process()`: fold `zipAndUploadLambda` over the config's lambdas,
threading the `grouped` cache, and collect the updated lambda objects. -/
def processLambdas (hashOf : String → String → String) (bucket stack : String) :
    List (String × GroupEntry) → List LambdaSpec →
      List (String × GroupEntry) × List LambdaSpec
  | grouped, [] => (grouped, [])
  | grouped, lam :: rest =>
      let r1 := zipAndUploadOne hashOf bucket stack grouped lam
      let r2 := processLambdas hashOf bucket stack r1.1 rest
      (r2.1, r1.2 :: r2.2)

/-! Embedding of `Kes.cloudFormation` (kes.js lines 249-347): the
describe → update-or-create → wait promise chain with its two catch
handlers. -/

/-- Behaviour of the remote CloudFormation API for one deployment: `none`
means the call succeeds, `some e` that it rejects with message `e`.
`stackEvents` is what `describeStackEvents` would report. -/
structure CfApi where
  describeError : Option String
  updateError : Option String
  createError : Option String
  waitUpdateError : Option String
  waitCreateError : Option String
  stackEvents : List String
  deriving Repr, DecidableEq

/-- The error classes whose failures trigger the event-log fetch
(kes.js lines 305-311). -/
def errorsWithDetail : List String :=
  ["CREATE_FAILED",
   "Resource is not in the state stackUpdateComplete",
   "UPDATE_ROLLBACK_COMPLETE",
   "ROLLBACK_COMPLETE",
   "UPDATE_ROLLBACK_FAILED"]

/-- `Kes.cloudFormation()`: describe the stack, then update it — or create it
when the describe/update error says the stack does not exist — then wait.
The final catch turns the exact message `No updates are to be performed.`
into a resolved promise (success); a detail-class error fetches the event log
and then fails with `CloudFormation Deployment failed`; any other error is
rethrown. -/
def cloudFormation (api : CfApi) : Except String Unit :=
  let phaseA : Except String Bool :=
    match api.describeError with
    | none =>
        match api.updateError with
        | none => .ok false
        | some e =>
            if strIncludes e "does not exist" then
              match api.createError with
              | none => .ok true
              | some ce => .error ce
            else .error e
    | some e =>
        if strIncludes e "does not exist" then
          match api.createError with
          | none => .ok true
          | some ce => .error ce
        else .error e
  let afterWait : Except String Unit :=
    match phaseA with
    | .error e => .error e
    | .ok isCreate =>
        match (if isCreate then api.waitCreateError else api.waitUpdateError) with
        | none => .ok ()
        | some e => .error e
  match afterWait with
  | .ok _ => .ok ()
  | .error e =>
      if e = "No updates are to be performed." then .ok ()
      else if errorsWithDetail.any (fun d => strIncludes e d) then
        .error "CloudFormation Deployment failed"
      else .error e

/-- Exit code of `kes cf deploy` as a function of the converge outcome: the
CLI runs `.then(success).catch(failure)`, i.e. exit 0 on a resolved promise
and exit 1 on a rejected one. -/
def deployExitCode (api : CfApi) : Nat :=
  match cloudFormation api with
  | .ok _ => 0
  | .error _ => 1

/-! Specification-side predicates and concrete scenario documents used to
state the claims. -/

/-- Whether a value is an object (a YAML mapping). -/
def isVObj : Value → Bool
  | .vobj _ => true
  | _ => false

/-- Whether a value is an array (a YAML sequence). -/
def isVArr : Value → Bool
  | .varr _ => true
  | _ => false

/-- Whether a value is a scalar (neither a mapping nor a sequence). -/
def isScalarV : Value → Bool
  | .vobj _ => false
  | .varr _ => false
  | _ => true

/-- The element list of an array value (`[]` for non-arrays). -/
def arrOf : Value → List Value
  | .varr l => l
  | _ => []

mutual

/-- A tree holds no remaining `\x7b\x7b` tag opener in any string leaf or
object key. -/
def noRefsV : Value → Bool
  | .vstr s => !hasSubstr s.data ['{', '{']
  | .varr l => noRefsArr l
  | .vobj kvs => noRefsObj kvs
  | _ => true

/-- `noRefsV` over an array's elements. -/
def noRefsArr : List Value → Bool
  | [] => true
  | v :: rest => noRefsV v && noRefsArr rest

/-- `noRefsV` over an object's keys and values. -/
def noRefsObj : List (String × Value) → Bool
  | [] => true
  | (k, v) :: rest => (!hasSubstr k.data ['{', '{']) && noRefsV v && noRefsObj rest

end

/-- The concatenated canonical names of every prefix of a path's segments,
continuing an already accumulated name list. -/
def prefixJoins (acc : List String) : List String → List String
  | [] => []
  | seg :: rest =>
      String.join (acc ++ [segmentName seg]) ::
        prefixJoins (acc ++ [segmentName seg]) rest

/-- The canonical segment name as claim C7 words it: for a placeholder, the
alphanumeric characters of the variable name followed by `Var`; otherwise the
segment text capitalized (first letter upper-cased). -/
def claimedSegmentName (segment : String) : String :=
  if segment.data.head? = some '{' then
    String.mk (segment.data.filter Char.isAlphanum) ++ "Var"
  else upperFirst segment

/-- The canonical segment name as the amended claim words it: for a
placeholder, the word characters (letters, digits and underscores) of the
segment followed by `Var` and then `upperFirst`; otherwise the segment text
with its first character upper-cased. -/
def amendedSegmentName (segment : String) : String :=
  if segment.data.head? = some '{' then
    upperFirst (String.mk (segment.data.filter isWordChar) ++ "Var")
  else upperFirst segment

/-- The config document of the C5 example scenario. -/
def demoDoc : Value :=
  .vobj [("default", .vobj [("stackName", .vstr "demo"),
            ("lambdas", .varr [.vobj [("name", .vstr "f1"), ("handler", .vstr "f1.run"),
                                      ("source", .vstr "./f1")]])]),
         ("prod", .vobj [("stackName", .vstr "demo-prod")])]

/-- The default-merged-with-prod layer of `demoDoc`. -/
def demoMerged : Value :=
  .vobj [("stackName", .vstr "demo-prod"),
         ("lambdas", .varr [.vobj [("name", .vstr "f1"), ("handler", .vstr "f1.run"),
                                   ("source", .vstr "./f1")]])]

/-- The fully resolved C5 example config. -/
def demoResolved : Value :=
  .vobj [("stackName", .vstr "demo-prod"),
         ("lambdas", .varr [.vobj [("name", .vstr "f1"), ("handler", .vstr "f1.run"),
                                   ("source", .vstr "./f1"), ("memory", .vnum 1024),
                                   ("timeout", .vnum 300), ("envs", .vobj []),
                                   ("fullName", .vstr "demo-prod-f1")]])]

/-- First element of a config's `lambdas` array (`.vnull` when absent),
used to state the example scenarios. -/
def firstLambda (c : Value) : Value :=
  match getField c "lambdas" with
  | some (.varr (l0 :: _)) => l0
  | _ => .vnull

/-- A config document whose `default` layer holds a four-step chain of
references: `a` → `b` → `c` → `d` → `e`.  Two passes leave `a` at
`\x7b\x7be\x7d\x7d`; only a third pass would finish resolving it. -/
def chainDoc : Value :=
  .vobj [("default", .vobj [("a", .vstr "\x7b\x7bb\x7d\x7d"), ("b", .vstr "\x7b\x7bc\x7d\x7d"),
            ("c", .vstr "\x7b\x7bd\x7d\x7d"), ("d", .vstr "\x7b\x7be\x7d\x7d"),
            ("e", .vstr "v")]),
         ("prod", .vobj [("x", .vstr "1")])]

/-- The `default` layer of `chainDoc`. -/
def chainDefault : Value :=
  .vobj [("a", .vstr "\x7b\x7bb\x7d\x7d"), ("b", .vstr "\x7b\x7bc\x7d\x7d"),
         ("c", .vstr "\x7b\x7bd\x7d\x7d"), ("d", .vstr "\x7b\x7be\x7d\x7d"),
         ("e", .vstr "v")]

/-- The `prod` layer of `chainDoc`. -/
def chainLayer : Value := .vobj [("x", .vstr "1")]

/-- `chainDoc` after the layer merge. -/
def chainMerged : Value :=
  .vobj [("a", .vstr "\x7b\x7bb\x7d\x7d"), ("b", .vstr "\x7b\x7bc\x7d\x7d"),
         ("c", .vstr "\x7b\x7bd\x7d\x7d"), ("d", .vstr "\x7b\x7be\x7d\x7d"),
         ("e", .vstr "v"), ("x", .vstr "1")]

/-- `chainMerged` after one substitution pass. -/
def chainOnce : Value :=
  .vobj [("a", .vstr "\x7b\x7bc\x7d\x7d"), ("b", .vstr "\x7b\x7bd\x7d\x7d"),
         ("c", .vstr "\x7b\x7be\x7d\x7d"), ("d", .vstr "v"),
         ("e", .vstr "v"), ("x", .vstr "1")]

/-- The resolved chain config: after exactly two passes `a` still reads
`\x7b\x7be\x7d\x7d`. -/
def chainResolved : Value :=
  .vobj [("a", .vstr "\x7b\x7be\x7d\x7d"), ("b", .vstr "v"), ("c", .vstr "v"),
         ("d", .vstr "v"), ("e", .vstr "v"), ("x", .vstr "1")]

/-- The C6 example: one lambda exposing `/foo/bar` (GET) and `/foo/baz`
(POST) on the api group `myApi`. -/
def routesConfig : Value :=
  .vobj [("apis", .varr [.vobj [("name", .vstr "myApi")]]),
         ("lambdas", .varr [
            .vobj [("name", .vstr "l1"),
                   ("apiGateway", .varr [
                      .vobj [("path", .vstr "/foo/bar"), ("method", .vstr "get"),
                             ("api", .vstr "myApi")],
                      .vobj [("path", .vstr "/foo/baz"), ("method", .vstr "post"),
                             ("api", .vstr "myApi")]])]])]

/-- First routing config of the C10 scenario (api group `apiA`, path `x`). -/
def gwDocA : Value :=
  .vobj [("apis", .varr [.vobj [("name", .vstr "apiA")]]),
         ("lambdas", .varr [
            .vobj [("name", .vstr "la"),
                   ("apiGateway", .varr [
                      .vobj [("path", .vstr "x"), ("method", .vstr "get"),
                             ("api", .vstr "apiA")]])]])]

/-- Second routing config of the C10 scenario (api group `apiB`, path `y`). -/
def gwDocB : Value :=
  .vobj [("apis", .varr [.vobj [("name", .vstr "apiB")]]),
         ("lambdas", .varr [
            .vobj [("name", .vstr "lb"),
                   ("apiGateway", .varr [
                      .vobj [("path", .vstr "y"), ("method", .vstr "put"),
                             ("api", .vstr "apiB")]])]])]

/-- A config without `apis`, for the C10 persistence conjunct. -/
def plainConfig : Value := .vobj [("stackName", .vstr "s")]

/-- The class-level statics left by running `configureApiGateway` on a config
from an empty class state. -/
def gwStatics (c : Value) : List (String × Value) :=
  match configureApiGateway [] c with
  | .ok (s, _) => s
  | .error _ => []

/-- The derived `apiResources` array of a config. -/
def gwResources (c : Value) : List Value :=
  match lookupV "apiResources" (gwStatics c) with
  | some (.varr l) => l
  | _ => []

/-- The derived `apiMethods` array of a config. -/
def gwMethods (c : Value) : List Value :=
  match lookupV "apiMethods" (gwStatics c) with
  | some (.varr l) => l
  | _ => []

/-- Remote behaviour of the C9 scenario: the stack exists and the update call
rejects with the no-op message. -/
def noUpdatesApi : CfApi :=
  { describeError := none,
    updateError := some "No updates are to be performed.",
    createError := none,
    waitUpdateError := none,
    waitCreateError := none,
    stackEvents := [] }

/-- The class-level statics after running `configureApiGateway` on a config
from a given class state. -/
def gwRun (statics : List (String × Value)) (c : Value) : List (String × Value) :=
  match configureApiGateway statics c with
  | .ok (s, _) => s
  | .error _ => []

/-- Whether `configureApiGateway` returned the class object (rather than the
config argument). -/
def gwReturnIsClass (statics : List (String × Value)) (c : Value) : Bool :=
  match configureApiGateway statics c with
  | .ok (_, .classObj _) => true
  | _ => false

/-- First unit of the C8 witness scenario. -/
def lamAw : LambdaSpec :=
  { name := "a", fullName := "full-a", handler := "h.run", source := some "./src",
    s3SourceBucket := none, s3SourceKey := none, localZip := none, remote := none,
    bucket := none }

/-- Second unit of the C8 witness scenario: same source path, different
full name. -/
def lamBw : LambdaSpec :=
  { name := "b", fullName := "full-b", handler := "h.run", source := some "./src",
    s3SourceBucket := none, s3SourceKey := none, localZip := none, remote := none,
    bucket := none }

/-- The packaged units of the C8 witness scenario. -/
def packedW : List LambdaSpec :=
  (processLambdas (fun _ _ => "H") "bkt" "stk" [] [lamAw, lamBw]).2

/-! Association-list lemmas. -/

theorem lookupAssoc_insertAssoc_self {α : Type} (l : List (String × α)) (k : String) (x : α) :
    lookupAssoc k (insertAssoc l k x) = some x := by
  induction l with
  | nil => simp [insertAssoc, lookupAssoc]
  | cons p rest ih =>
      obtain ⟨k', v⟩ := p
      by_cases hk : k' = k
      · simp [insertAssoc, hk, lookupAssoc]
      · simp [insertAssoc, hk, lookupAssoc, ih]

theorem lookupAssoc_insertAssoc_ne {α : Type} (l : List (String × α)) (k k' : String) (x : α)
    (h : k' ≠ k) : lookupAssoc k (insertAssoc l k' x) = lookupAssoc k l := by
  induction l with
  | nil => simp [insertAssoc, lookupAssoc, h]
  | cons p rest ih =>
      obtain ⟨k'', v⟩ := p
      by_cases hk : k'' = k'
      · subst hk
        simp [insertAssoc, lookupAssoc, h]
      · by_cases hk2 : k'' = k
        · subst hk2
          rw [insertAssoc, if_neg hk]
          simp [lookupAssoc]
        · simp [insertAssoc, hk, lookupAssoc, hk2, ih]

theorem lookupAssoc_append {α : Type} (l1 l2 : List (String × α)) (k : String) :
    lookupAssoc k (l1 ++ l2) =
      (match lookupAssoc k l1 with
       | some v => some v
       | none => lookupAssoc k l2) := by
  induction l1 with
  | nil => simp [lookupAssoc]
  | cons p rest ih =>
      obtain ⟨k', v⟩ := p
      by_cases hk : k' = k
      · simp [lookupAssoc, hk]
      · simp [lookupAssoc, hk, ih]

/-! Merge lemmas. -/

/-- Keys of the destination survive `mergeObj`, with values merged against
the source's value for the key when the source has one. -/
theorem lookupAssoc_mergeObj (d : List (String × Value)) (s : List (String × Value)) (k : String) :
    lookupAssoc k (mergeObj d s) =
      (lookupAssoc k d).map (fun dv =>
        match lookupV k s with
        | some sv => mergeV dv sv
        | none => dv) := by
  induction d with
  | nil => simp [mergeObj, lookupAssoc]
  | cons p rest ih =>
      obtain ⟨k', v⟩ := p
      by_cases hk : k' = k
      · simp only [mergeObj, lookupAssoc, hk, if_pos]
        cases hls : lookupV k s <;> simp [hls]
      · simp [mergeObj, lookupAssoc, hk, ih]

/-- Merging an empty source object is the identity. -/
theorem mergeObj_nil_right : ∀ l : List (String × Value), mergeObj l [] = l
  | [] => by simp [mergeObj]
  | (k, v) :: rest => by
      simp [mergeObj, lookupV, lookupAssoc, mergeObj_nil_right rest]

/-- The scope `merge(\x7b\x7d, config, \x7b\x7d)` of an object config is the
config itself. -/
theorem mergeV_empty_scope (c : Value) (hc : isVObj c = true) :
    mergeV (mergeV (.vobj []) c) (.vobj []) = c := by
  cases c with
  | vobj kvs =>
      have h1 : mergeV (.vobj []) (.vobj kvs) = .vobj kvs := by
        simp only [mergeV, mergeObj, List.nil_append]
        congr 1
        exact List.filter_eq_self.mpr (fun p _ => rfl)
      rw [h1]
      simp [mergeV, mergeObj_nil_right]
  | vnull => simp [isVObj] at hc
  | vbool b => simp [isVObj] at hc
  | vnum n => simp [isVObj] at hc
  | vstr s => simp [isVObj] at hc
  | varr l => simp [isVObj] at hc

/-- Index-wise behaviour of the array merge. -/
theorem mergeArr_getElem? : ∀ (d s : List Value) (i : Nat),
    (mergeArr d s)[i]? =
      (match d[i]?, s[i]? with
       | some dv, some sv => some (mergeV dv sv)
       | some dv, none => some dv
       | none, some sv => some sv
       | none, none => none)
  | d, [], i => by
      cases h : d[i]? <;> simp [mergeArr, h]
  | [], sv :: ss, i => by
      cases h : (sv :: ss)[i]? <;> simp [mergeArr, h]
  | dv :: ds, sv :: ss, i => by
      cases i with
      | zero => simp [mergeArr]
      | succ n => simpa [mergeArr] using mergeArr_getElem? ds ss n

/-- Unfolding of the graft prefix on a cons cell, with a plain match. -/
theorem mergeArrObjPrefix_cons (s : List (String × Value)) (i : Nat) (dv : Value)
    (ds : List Value) :
    mergeArrObjPrefix s i (dv :: ds) =
      (match lookupIndex i s with
       | some sv => mergeV dv sv
       | none => dv) :: mergeArrObjPrefix s (i + 1) ds := by
  simp only [mergeArrObjPrefix]
  cases hx : lookupIndex i s <;> rfl

/-- The graft keeps the destination's length over its existing positions. -/
theorem mergeArrObjPrefix_length (s : List (String × Value)) :
    ∀ (d : List Value) (i : Nat), (mergeArrObjPrefix s i d).length = d.length
  | [], _ => by simp [mergeArrObjPrefix]
  | dv :: ds, i => by
      rw [mergeArrObjPrefix_cons]
      simp [mergeArrObjPrefix_length s ds (i + 1)]

/-- Element-wise behaviour of the graft over the destination's positions. -/
theorem mergeArrObjPrefix_getElem? (s : List (String × Value)) :
    ∀ (d : List Value) (i0 i : Nat),
      (mergeArrObjPrefix s i0 d)[i]? =
        (d[i]?).map (fun dv =>
          match lookupIndex (i0 + i) s with
          | some sv => mergeV dv sv
          | none => dv)
  | [], i0, i => by simp [mergeArrObjPrefix]
  | dv :: ds, i0, i => by
      rw [mergeArrObjPrefix_cons]
      cases i with
      | zero => simp
      | succ n =>
          have ih := mergeArrObjPrefix_getElem? s ds (i0 + 1) n
          simp only [List.getElem?_cons_succ, ih, Nat.add_succ, Nat.succ_add]

/-- C1 counterexample: merging override layer `\x7ba: [3]\x7d` over default
layer `\x7ba: [1, 2]\x7d` yields `\x7ba: [3, 2]\x7d`, and merging override
layer `\x7ba: \x7b"0": 9\x7d\x7d` over the same default yields
`\x7ba: [9, 2]\x7d` — in neither case does the override layer's value fully
replace the default's sequence; lodash merges element-wise into it. -/
theorem C1_counterexample :
    mergeV (.vobj [("a", .varr [.vnum 1, .vnum 2])]) (.vobj [("a", .varr [.vnum 3])])
      = .vobj [("a", .varr [.vnum 3, .vnum 2])] ∧
    mergeV (.vobj [("a", .varr [.vnum 1, .vnum 2])]) (.vobj [("a", .varr [.vnum 3])])
      ≠ .vobj [("a", .varr [.vnum 3])] ∧
    mergeV (.vobj [("a", .varr [.vnum 1, .vnum 2])])
        (.vobj [("a", .vobj [("0", .vnum 9)])])
      = .vobj [("a", .varr [.vnum 9, .vnum 2])] ∧
    mergeV (.vobj [("a", .varr [.vnum 1, .vnum 2])])
        (.vobj [("a", .vobj [("0", .vnum 9)])])
      ≠ .vobj [("a", .vobj [("0", .vnum 9)])] := by
  have h : mergeV (.vobj [("a", .varr [.vnum 1, .vnum 2])]) (.vobj [("a", .varr [.vnum 3])])
      = .vobj [("a", .varr [.vnum 3, .vnum 2])] := by
    simp [mergeV, mergeObj, mergeArr, lookupV, lookupAssoc]
  have hl0 : lookupIndex 0 [("0", Value.vnum 9)] = some (.vnum 9) := by decide
  have hl1 : lookupIndex 1 [("0", Value.vnum 9)] = none := by decide
  have hmx : max ([Value.vnum 1, Value.vnum 2].length)
      (maxIndexBound [("0", Value.vnum 9)]) = 2 := by decide
  have hg : mergeV (.varr [.vnum 1, .vnum 2]) (.vobj [("0", .vnum 9)])
      = .varr [.vnum 9, .vnum 2] := by
    simp [mergeV, mergeArrObjPrefix_cons, mergeArrObjPrefix, graftTail, List.range',
          hl0, hl1, hmx]
  have h2 : mergeV (.vobj [("a", .varr [.vnum 1, .vnum 2])])
      (.vobj [("a", .vobj [("0", .vnum 9)])])
      = .vobj [("a", .varr [.vnum 9, .vnum 2])] := by
    simp [mergeV, mergeObj, lookupV, lookupAssoc, hg]
  refine ⟨h, ?_, h2, ?_⟩
  · rw [h]; decide
  · rw [h2]; decide

/-- C1 (amended): the resolver's deep merge combines keys present in both
layers by merging the two values — recursing through nested mappings; two
sequences merge element-wise by index (positions present in both merge
recursively, default elements beyond the override's length are retained)
rather than the override replacing the default; an override scalar replaces
the default's value; and an override mapping over a default sequence is
grafted key-wise into the sequence — the sequence survives, positions
addressed by the mapping's index keys are merged and the other existing
positions retained — rather than replacing it. -/
theorem C1_merge_amended :
    (∀ (d s : List (String × Value)) (k : String) (dv sv : Value),
        lookupV k d = some dv → lookupV k s = some sv →
        getField (mergeV (.vobj d) (.vobj s)) k = some (mergeV dv sv)) ∧
    (∀ d s : Value, isScalarV s = true → mergeV d s = s) ∧
    (∀ d s : List Value, mergeV (.varr d) (.varr s) = .varr (mergeArr d s)) ∧
    (∀ (d s : List Value) (i : Nat),
        (mergeArr d s)[i]? =
          (match d[i]?, s[i]? with
           | some dv, some sv => some (mergeV dv sv)
           | some dv, none => some dv
           | none, some sv => some sv
           | none, none => none)) ∧
    (∀ (d : List Value) (s : List (String × Value)),
        isVArr (mergeV (.varr d) (.vobj s)) = true) ∧
    (∀ (d : List Value) (s : List (String × Value)) (i : Nat), i < d.length →
        (arrOf (mergeV (.varr d) (.vobj s)))[i]? =
          (d[i]?).map (fun dv =>
            match lookupIndex i s with
            | some sv => mergeV dv sv
            | none => dv)) := by
  refine ⟨?_, ?_, ?_, mergeArr_getElem?, ?_, ?_⟩
  · intro d s k dv sv hd hs
    simp only [mergeV, getField, lookupV, lookupAssoc_append, lookupAssoc_mergeObj]
    simp only [lookupV] at hd hs ⊢
    rw [hd, hs]
    simp
  · intro d s h
    cases s <;> simp [isScalarV] at h <;> cases d <;> simp [mergeV]
  · intro d s
    simp [mergeV]
  · intro d s
    simp [mergeV, isVArr]
  · intro d s i hi
    simp only [mergeV, arrOf]
    rw [List.getElem?_append]
    rw [if_pos (by rw [mergeArrObjPrefix_length]; exact hi)]
    rw [mergeArrObjPrefix_getElem?]
    simp

/-- C1 amended witness: the merge behaviours at concrete inputs. -/
theorem C1_merge_amended_witness :
    getField (mergeV (.vobj [("a", .vnum 1)]) (.vobj [("a", .vnum 2)])) "a"
      = some (mergeV (.vnum 1) (.vnum 2)) ∧
    mergeV (.varr [.vnum 1]) (.vstr "x") = .vstr "x" ∧
    (mergeArr [.vnum 1, .vnum 2] [.vnum 3])[1]? = some (.vnum 2) ∧
    isVArr (mergeV (.varr [.vnum 1, .vnum 2]) (.vobj [("0", .vnum 9)])) = true ∧
    (arrOf (mergeV (.varr [.vnum 1, .vnum 2]) (.vobj [("0", .vnum 9)])))[0]? =
      some (mergeV (.vnum 1) (.vnum 9)) := by
  refine ⟨C1_merge_amended.1 _ _ "a" _ _ (by simp [lookupV, lookupAssoc])
            (by simp [lookupV, lookupAssoc]),
          C1_merge_amended.2.1 _ _ (by decide), ?_,
          C1_merge_amended.2.2.2.2.1 [.vnum 1, .vnum 2] [("0", .vnum 9)], ?_⟩
  · have h := C1_merge_amended.2.2.2.1 [.vnum 1, .vnum 2] [.vnum 3] 1
    simpa using h
  · have h := C1_merge_amended.2.2.2.2.2 [.vnum 1, .vnum 2] [("0", .vnum 9)] 0 (by decide)
    have hl0 : lookupIndex 0 [("0", Value.vnum 9)] = some (.vnum 9) := by decide
    simpa [hl0] using h

/-- C2: a non-empty selected deployment name absent from the document's
top-level keys makes `parseConfig` fail with the layer-not-found error, and
through `buildCf` plus the CLI wiring the process exits with code 1 with no
remote orchestration call issued. -/
theorem C2_layer_not_found (statics : List (String × Value)) (doc : Value)
    (deployment : String) (stackOpt : Option String) (parent : Option Value)
    (envs : List (String × Value)) (rest : Value → CliOutcome)
    (_hne : deployment ≠ "") (habs : getField doc deployment = none) :
    parseConfigV statics doc deployment stackOpt parent envs =
      .error ("Deployment " ++ deployment ++
        " was not found in the kes configuration file.") ∧
    buildCfRun statics doc deployment stackOpt parent envs rest =
      { exitCode := 1, remoteCalls := [] } := by
  have hp : parseConfigV statics doc deployment stackOpt parent envs =
      .error ("Deployment " ++ deployment ++
        " was not found in the kes configuration file.") := by
    simp only [parseConfigV, habs]
    simp [truthy]
  exact ⟨hp, by simp [buildCfRun, hp]⟩

/-- C2 witness: requesting layer `staging` from a document holding only a
`default` layer fails before any remote call, even when the post-resolution
action would have issued one. -/
theorem C2_witness :
    parseConfigV [] (.vobj [("default", .vobj [])]) "staging" none none [] =
      .error "Deployment staging was not found in the kes configuration file." ∧
    buildCfRun [] (.vobj [("default", .vobj [])]) "staging" none none []
      (fun _ => { exitCode := 0, remoteCalls := [RemoteCall.updateStack] }) =
      { exitCode := 1, remoteCalls := [] } := by
  have h := C2_layer_not_found [] (.vobj [("default", .vobj [])]) "staging" none none []
      (fun _ => { exitCode := 0, remoteCalls := [RemoteCall.updateStack] })
      (by decide) (by decide)
  refine ⟨?_, h.2⟩
  rw [h.1]
  rfl

/-- C9: an update call rejecting with exactly `No updates are to be
performed.` is swallowed by the final catch of `Kes.cloudFormation`: the
converge resolves, and the CLI exits with code 0, not 1. -/
theorem C9_no_updates_success (api : CfApi)
    (hdesc : api.describeError = none)
    (hupd : api.updateError = some "No updates are to be performed.") :
    cloudFormation api = .ok () ∧ deployExitCode api = 0 := by
  have hinc : strIncludes "No updates are to be performed." "does not exist" = false := by
    decide
  have h : cloudFormation api = .ok () := by
    simp only [cloudFormation, hdesc, hupd, hinc]
    simp
  exact ⟨h, by simp [deployExitCode, h]⟩

/-- C9 witness: the concrete no-op deployment scenario. -/
theorem C9_witness :
    cloudFormation noUpdatesApi = .ok () ∧ deployExitCode noUpdatesApi = 0 :=
  C9_no_updates_success noUpdatesApi rfl rfl

/-! Routing-derivation lemmas. -/

/-- The segment loop accumulates exactly the canonical name of each segment,
in order. -/
theorem addSegments_fst (apiStr : String) (apiRaw : Value) :
    ∀ (segs : List String) (acc : List String) (res : List (String × Value)),
      (addSegments apiStr apiRaw acc segs res).1 = acc ++ segs.map segmentName
  | [], acc, res => by simp [addSegments]
  | seg :: rest, acc, res => by
      simp only [addSegments, List.map_cons]
      rw [addSegments_fst apiStr apiRaw rest (acc ++ [segmentName seg])]
      simp

/-- C7 counterexample: for the placeholder segment `\x7bshort_name\x7d` the
code derives `Short_nameVar` (the underscore is a word character kept by the
`\W` removal, and `upperFirst` is applied), not the claimed
`shortnameVar` built from alphanumeric characters only and without
capitalization. -/
theorem C7_counterexample :
    segmentName "\x7bshort_name\x7d" = "Short_nameVar" ∧
    claimedSegmentName "\x7bshort_name\x7d" = "shortnameVar" ∧
    segmentName "\x7bshort_name\x7d" ≠ claimedSegmentName "\x7bshort_name\x7d" := by
  decide

/-- C7 (amended): for every route path segment the derived canonical
resource-name component is: for a `\x7bvariable\x7d` placeholder, the word
characters (letters, digits and underscores) of the segment followed by the
suffix `Var`, with the first character then upper-cased; otherwise the
segment text with its first character upper-cased — and the segment loop of
`configureApiGateway` uses exactly these components for its resource keys. -/
theorem C7_segment_name_amended :
    (∀ seg : String, segmentName seg = amendedSegmentName seg) ∧
    (∀ (apiStr : String) (apiRaw : Value) (segs : List String)
        (res : List (String × Value)),
        (addSegments apiStr apiRaw [] segs res).1 = segs.map amendedSegmentName) := by
  have hpt : ∀ seg : String, segmentName seg = amendedSegmentName seg := by
    intro seg
    unfold segmentName amendedSegmentName removeNonWordChars
    by_cases h : seg.data.head? = some '{' <;> simp [h]
  refine ⟨hpt, ?_⟩
  intro apiStr apiRaw segs res
  rw [addSegments_fst]
  simp [hpt]

/-! Renderer lemmas. -/

/-- Inside a tag whose name holds no closing brace, the scan reaches the
closing `\x7d\x7d` and substitutes the collected name. -/
theorem renderTag_closes (scope : Value) :
    ∀ (name acc rest : List Char), '}' ∉ name →
      renderTag scope acc (name ++ '}' :: '}' :: rest) =
        tagSubst scope (acc.reverse ++ name) ++ renderText scope rest
  | [], acc, rest, _ => by simp [renderTag]
  | c :: name', acc, rest, h => by
      have hc : c ≠ '}' := fun hx => h (by simp [hx])
      cases name' with
      | nil =>
          simp only [List.cons_append, List.nil_append, renderTag]
          rw [if_neg (fun hx => hc hx.1)]
          have hrec := renderTag_closes scope [] (c :: acc) rest (by simp)
          simpa using hrec
      | cons c2 t =>
          have h' : '}' ∉ c2 :: t := fun hx => h (List.mem_cons_of_mem c hx)
          simp only [List.cons_append, renderTag]
          rw [if_neg (fun hx => hc hx.1)]
          have hrec := renderTag_closes scope (c2 :: t) (c :: acc) rest h'
          simpa [List.append_assoc] using hrec

/-- Template text holding no `\x7b\x7b` renders to itself. -/
theorem renderText_id (scope : Value) :
    ∀ l : List Char, hasSubstr l ['{', '{'] = false → renderText scope l = l
  | [], _ => rfl
  | [_], _ => rfl
  | c1 :: c2 :: rest, h => by
      rw [hasSubstr, Bool.or_eq_false_iff] at h
      obtain ⟨h1, h2⟩ := h
      have hcond : ¬(c1 = '{' ∧ c2 = '{') := by
        intro hx
        obtain ⟨e1, e2⟩ := hx
        subst e1; subst e2
        simp [List.isPrefixOf] at h1
      simp only [renderText]
      rw [if_neg hcond, renderText_id scope (c2 :: rest) h2]

mutual

/-- A tree with no remaining tag opener renders to itself. -/
theorem renderValue_id (scope : Value) :
    ∀ v : Value, noRefsV v = true → renderValue scope v = v
  | .vnull, _ => rfl
  | .vbool _, _ => rfl
  | .vnum _, _ => rfl
  | .vstr s, h => by
      simp only [noRefsV, Bool.not_eq_true'] at h
      simp only [renderValue, renderString, renderText_id scope s.data h]
  | .varr l, h => by
      simp only [noRefsV] at h
      simp only [renderValue, renderListV_id scope l h]
  | .vobj kvs, h => by
      simp only [noRefsV] at h
      simp only [renderValue, renderObjV_id scope kvs h]

/-- Array version of `renderValue_id`. -/
theorem renderListV_id (scope : Value) :
    ∀ l : List Value, noRefsArr l = true → renderListV scope l = l
  | [], _ => rfl
  | v :: rest, h => by
      simp only [noRefsArr, Bool.and_eq_true] at h
      simp only [renderListV, renderValue_id scope v h.1, renderListV_id scope rest h.2]

/-- Object version of `renderValue_id`. -/
theorem renderObjV_id (scope : Value) :
    ∀ l : List (String × Value), noRefsObj l = true → renderObjV scope l = l
  | [], _ => rfl
  | (k, v) :: rest, h => by
      simp only [noRefsObj, Bool.and_eq_true, Bool.not_eq_true'] at h
      simp only [renderObjV, renderString, renderText_id scope k.data h.1.1,
                 renderValue_id scope v h.1.2, renderObjV_id scope rest h.2]

end

/-- C3: `parseConfig` substitutes exactly twice, each pass rendering the tree
against a scope rebuilt from the current config plus the environment: on a
four-step reference chain the resolved config still reads
`\x7b\x7be\x7d\x7d` at `a` (a third pass — shown applied — would have
finished it); and a tag whose name does not resolve in the scope renders as
the empty string instead of raising. -/
theorem C3_substitute_twice_unresolved_empty :
    parseConfigV [] chainDoc "prod" none none [] = .ok ([], chainResolved) ∧
    getField chainResolved "a" = some (.vstr "\x7b\x7be\x7d\x7d") ∧
    getField (substitutePass [] chainResolved) "a" = some (.vstr "v") ∧
    (∀ (scope : Value) (name rest : List Char), '}' ∉ name →
        mustacheLookup scope name = none →
        renderText scope ('{' :: '{' :: (name ++ '}' :: '}' :: rest)) =
          renderText scope rest) := by
  refine ⟨?_, by decide, ?_, ?_⟩
  · have h0 : (getField chainDoc "default").getD .vnull = chainDefault := by decide
    have hl : (getField chainDoc "prod").getD .vnull = chainLayer := by decide
    have hm : mergeV chainDefault chainLayer = chainMerged := by
      simp [chainDefault, chainLayer, chainMerged, mergeV, mergeObj, lookupV, lookupAssoc]
    have hs0 : renderScope chainMerged [] = chainMerged := mergeV_empty_scope chainMerged (by decide)
    have hr1 : renderValue chainMerged chainMerged = chainOnce := by decide
    have hs1 : renderScope chainOnce [] = chainOnce := mergeV_empty_scope chainOnce (by decide)
    have hr2 : renderValue chainOnce chainOnce = chainResolved := by decide
    have hsub : substituteTwice [] chainMerged = chainResolved := by
      simp only [substituteTwice, substitutePass, renderScope] at *
      rw [hs0, hr1, hs1, hr2]
    have hcl : configureLambda chainResolved = chainResolved := by decide
    have hgw : configureApiGateway [] chainResolved = .ok ([], .configObj) := by decide
    have hmm : mergeV chainResolved chainResolved = chainResolved := by
      simp [chainResolved, mergeV, mergeObj, lookupV, lookupAssoc]
    unfold parseConfigV
    rw [if_pos ⟨by decide, by decide⟩]
    simp only [h0, hl, hm, hsub, hcl, hgw, hmm]
  · have hs : renderScope chainResolved [] = chainResolved := mergeV_empty_scope chainResolved (by decide)
    simp only [substitutePass, hs]
    decide
  · intro scope name rest hnm hlk
    have hstep : renderText scope ('{' :: '{' :: (name ++ '}' :: '}' :: rest)) =
        renderTag scope [] (name ++ '}' :: '}' :: rest) := by
      simp [renderText]
    rw [hstep, renderTag_closes scope name [] rest hnm]
    simp [tagSubst, hlk]

/-- C3 witness: an unresolvable `\x7b\x7bmissing\x7d\x7d` tag renders empty
at a concrete scope. -/
theorem C3_witness :
    renderText (.vobj [("a", .vstr "1")])
        ('{' :: '{' :: ("missing".data ++ '}' :: '}' :: " tail".data)) =
      renderText (.vobj [("a", .vstr "1")]) " tail".data :=
  C3_substitute_twice_unresolved_empty.2.2.2 (.vobj [("a", .vstr "1")])
    "missing".data " tail".data (by decide) (by decide)

/-- C4: a tree already substituted twice that holds no remaining reference
tag is left unchanged by one further substitution pass against the scope
built from the tree itself plus the environment. -/
theorem C4_third_pass_identity (envs : List (String × Value)) (c : Value)
    (h : noRefsV (substituteTwice envs c) = true) :
    substitutePass envs (substituteTwice envs c) = substituteTwice envs c :=
  renderValue_id _ _ h

/-- C4 witness: a concrete tag-free config is a fixed point of the third
pass. -/
theorem C4_witness :
    substitutePass [] (substituteTwice [] (.vobj [("x", .vstr "hi")])) =
      substituteTwice [] (.vobj [("x", .vstr "hi")]) := by
  have hsc : mergeV (mergeV (.vobj []) (.vobj [("x", .vstr "hi")])) (.vobj []) =
      .vobj [("x", .vstr "hi")] := by
    simp [mergeV, mergeObj, lookupV, lookupAssoc]
  have hp : substitutePass [] (.vobj [("x", .vstr "hi")]) = .vobj [("x", .vstr "hi")] := by
    simp only [substitutePass, renderScope, hsc]
    decide
  exact C4_third_pass_identity [] (.vobj [("x", .vstr "hi")])
    (by simp only [substituteTwice, hp]; decide)

/-- C5: a deployable unit without explicit values receives memory 1024,
timeout 300 and an empty `envs` mapping, and its `fullName` is
`stackName-name`; resolving the C5 example document with layer `prod` yields
`stackName = demo-prod`, `lambdas[0].fullName = demo-prod-f1` and
`lambdas[0].memory = 1024`. -/
theorem C5_lambda_defaults :
    (∀ (stackName : String) (kvs : List (String × Value)) (n : String),
        lookupV "name" kvs = some (.vstr n) →
        lookupV "memory" kvs = none →
        lookupV "timeout" kvs = none →
        lookupV "envs" kvs = none →
        getField (configureLambdaOne stackName (.vobj kvs)) "memory" = some (.vnum 1024) ∧
        getField (configureLambdaOne stackName (.vobj kvs)) "timeout" = some (.vnum 300) ∧
        getField (configureLambdaOne stackName (.vobj kvs)) "envs" = some (.vobj []) ∧
        getField (configureLambdaOne stackName (.vobj kvs)) "fullName" =
          some (.vstr (stackName ++ "-" ++ n))) ∧
    parseConfigV [] demoDoc "prod" none none [] = .ok ([], demoResolved) ∧
    getField demoResolved "stackName" = some (.vstr "demo-prod") ∧
    getField (firstLambda demoResolved) "fullName" = some (.vstr "demo-prod-f1") ∧
    getField (firstLambda demoResolved) "memory" = some (.vnum 1024) := by
  refine ⟨?_, ?_, by decide, by decide, by decide⟩
  · intro stackName kvs n hname hmem htime henv
    simp only [lookupV] at hname hmem htime henv
    cases hsv : lookupAssoc "services" kvs with
    | none =>
        simp [configureLambdaOne, hasKey, getField, setField, insertKV, lookupV, hname, hmem,
              htime, henv, hsv, lookupAssoc_insertAssoc_self, lookupAssoc_insertAssoc_ne,
              jsTemplateStr, jsStringOf]
    | some sv =>
        cases sv <;>
        simp [configureLambdaOne, hasKey, getField, setField, insertKV, lookupV, hname, hmem,
              htime, henv, hsv, lookupAssoc_insertAssoc_self, lookupAssoc_insertAssoc_ne,
              jsTemplateStr, jsStringOf]
  · have h0 : (getField demoDoc "default").getD .vnull =
        .vobj [("stackName", .vstr "demo"),
               ("lambdas", .varr [.vobj [("name", .vstr "f1"), ("handler", .vstr "f1.run"),
                                         ("source", .vstr "./f1")]])] := by decide
    have hl : (getField demoDoc "prod").getD .vnull =
        .vobj [("stackName", .vstr "demo-prod")] := by decide
    have hm : mergeV
        (.vobj [("stackName", .vstr "demo"),
                ("lambdas", .varr [.vobj [("name", .vstr "f1"), ("handler", .vstr "f1.run"),
                                          ("source", .vstr "./f1")]])])
        (.vobj [("stackName", .vstr "demo-prod")]) = demoMerged := by
      simp [demoMerged, mergeV, mergeObj, mergeArr, lookupV, lookupAssoc]
    have hs0 : renderScope demoMerged [] = demoMerged := by
      simp only [renderScope]
      exact mergeV_empty_scope demoMerged (by decide)
    have hr : renderValue demoMerged demoMerged = demoMerged := by decide
    have hsub : substituteTwice [] demoMerged = demoMerged := by
      simp only [substituteTwice, substitutePass]
      rw [hs0, hr, hs0, hr]
    have hcl : configureLambda demoMerged = demoResolved := by decide
    have hgw : configureApiGateway [] demoResolved = .ok ([], .configObj) := by decide
    have hmm2 : mergeV demoResolved demoResolved = demoResolved := by
      simp [demoResolved, mergeV, mergeObj, mergeArr, lookupV, lookupAssoc]
    unfold parseConfigV
    rw [if_pos ⟨by decide, by decide⟩]
    simp only [h0, hl, hm, hsub, hcl, hgw, hmm2]

/-- C5 witness: the defaults at a concrete unit without explicit values. -/
theorem C5_witness :
    getField (configureLambdaOne "demo-prod"
        (.vobj [("name", .vstr "f1"), ("handler", .vstr "f1.run")])) "memory"
      = some (.vnum 1024) ∧
    getField (configureLambdaOne "demo-prod"
        (.vobj [("name", .vstr "f1"), ("handler", .vstr "f1.run")])) "fullName"
      = some (.vstr "demo-prod-f1") := by
  have h := C5_lambda_defaults.1 "demo-prod"
      [("name", .vstr "f1"), ("handler", .vstr "f1.run")] "f1"
      (by decide) (by decide) (by decide) (by decide)
  exact ⟨h.1, h.2.2.2⟩

/-- Inserting under `key` makes the map hold exactly the old keys plus `key`. -/
theorem lookupAssoc_insertAssoc_isSome {α : Type} (l : List (String × α)) (k key : String)
    (x : α) :
    (lookupAssoc k (insertAssoc l key x)).isSome = true ↔
      k = key ∨ (lookupAssoc k l).isSome = true := by
  by_cases h : key = k
  · subst h
    simp [lookupAssoc_insertAssoc_self]
  · rw [lookupAssoc_insertAssoc_ne _ _ _ _ h]
    simp [Ne.symm h]

/-- The resource map after the segment loop holds exactly the old keys plus
the concatenated canonical name of every prefix of the processed segments. -/
theorem addSegments_mem_keys (apiStr : String) (apiRaw : Value) :
    ∀ (segs acc : List String) (res : List (String × Value)) (k : String),
      (lookupAssoc k (addSegments apiStr apiRaw acc segs res).2).isSome = true ↔
        (lookupAssoc k res).isSome = true ∨ k ∈ prefixJoins acc segs
  | [], acc, res, k => by simp [addSegments, prefixJoins]
  | seg :: rest, acc, res, k => by
      simp only [addSegments, prefixJoins, List.mem_cons, insertKV]
      rw [addSegments_mem_keys apiStr apiRaw rest (acc ++ [segmentName seg]) _ k,
          lookupAssoc_insertAssoc_isSome]
      tauto

/-- One route appends exactly one method object. -/
theorem processRoute_methods_len (lname : Value) (st : GwState) (av : Value) (st' : GwState)
    (h : processRoute lname st av = .ok st') :
    st'.apiMethods.length = st.apiMethods.length + 1 := by
  unfold processRoute at h
  dsimp only [] at h
  repeat' split at h
  all_goals
    first
      | exact Except.noConfusion h
      | (have h2 := Except.ok.inj h
         subst h2
         simp)

/-- Processing a route list appends one method object per route. -/
theorem foldlExcept_processRoute_len (lname : Value) :
    ∀ (routes : List Value) (st st' : GwState),
      foldlExcept (processRoute lname) st routes = .ok st' →
      st'.apiMethods.length = st.apiMethods.length + routes.length
  | [], st, st', h => by
      simp only [foldlExcept] at h
      cases h
      simp
  | r :: rest, st, st', h => by
      simp only [foldlExcept] at h
      split at h
      · cases h
      · rename_i st1 heq
        have h1 := processRoute_methods_len lname st r st1 heq
        have h2 := foldlExcept_processRoute_len lname rest st1 st' h
        simp only [List.length_cons]
        omega

/-- C6: the derived resource set is keyed by the concatenation of the
canonical segment names — a resource key exists iff it is the joined
canonical name of some prefix of some processed path — while every processed
route appends exactly one method; in particular `/foo/bar` (GET) and
`/foo/baz` (POST) produce one resource for `foo`, two distinct resources for
`bar` and `baz`, and two distinct methods. -/
theorem C6_shared_prefix_resources :
    (∀ (apiStr : String) (apiRaw : Value) (segs acc : List String)
        (res : List (String × Value)) (k : String),
        (lookupAssoc k (addSegments apiStr apiRaw acc segs res).2).isSome = true ↔
          (lookupAssoc k res).isSome = true ∨ k ∈ prefixJoins acc segs) ∧
    (∀ (lname : Value) (routes : List Value) (st st' : GwState),
        foldlExcept (processRoute lname) st routes = .ok st' →
        st'.apiMethods.length = st.apiMethods.length + routes.length) ∧
    (gwResources routesConfig).countP
        (fun r => getField r "pathPart" == some (.vstr "foo")) = 1 ∧
    (gwResources routesConfig).countP
        (fun r => getField r "pathPart" == some (.vstr "bar")) = 1 ∧
    (gwResources routesConfig).countP
        (fun r => getField r "pathPart" == some (.vstr "baz")) = 1 ∧
    (gwResources routesConfig).countP
        (fun r => getField r "name" == some (.vstr "ApiGateWayResourceFooBar")) = 1 ∧
    (gwResources routesConfig).countP
        (fun r => getField r "name" == some (.vstr "ApiGateWayResourceFooBaz")) = 1 ∧
    (gwMethods routesConfig).length = 2 ∧
    (gwMethods routesConfig).countP
        (fun m => getField m "name" == some (.vstr "ApiGatewayMethodFooBarGet")) = 1 ∧
    (gwMethods routesConfig).countP
        (fun m => getField m "name" == some (.vstr "ApiGatewayMethodFooBazPost")) = 1 :=
  ⟨addSegments_mem_keys, foldlExcept_processRoute_len,
   by decide, by decide, by decide, by decide, by decide, by decide, by decide, by decide⟩

/-- C6 witness: the method-per-route count applied at a concrete fold. -/
theorem C6_witness :
    (⟨[], [], [], []⟩ : GwState).apiMethods.length =
      (⟨[], [], [], []⟩ : GwState).apiMethods.length + ([] : List Value).length :=
  C6_shared_prefix_resources.2.1 .vnull [] ⟨[], [], [], []⟩ ⟨[], [], [], []⟩ (by decide)

/-! Packaging lemmas. -/

/-- Once cached, a source's group entry is never changed by later lambdas. -/
theorem processLambdas_grouped_mono (hashOf : String → String → String) (bucket stack : String) :
    ∀ (lams : List LambdaSpec) (grouped : List (String × GroupEntry))
      (s : String) (e : GroupEntry),
      lookupAssoc s grouped = some e →
      lookupAssoc s (processLambdas hashOf bucket stack grouped lams).1 = some e
  | [], grouped, s, e, h => by simpa [processLambdas] using h
  | lam :: rest, grouped, s, e, h => by
      have hz : lookupAssoc s (zipAndUploadOne hashOf bucket stack grouped lam).1 = some e := by
        unfold zipAndUploadOne
        cases hsrc : lam.source with
        | none => cases lam.s3SourceKey <;> cases lam.s3SourceBucket <;> simp [h]
        | some src =>
            cases hg : lookupAssoc src grouped with
            | some g => simp [hg, h]
            | none =>
                have hne : src ≠ s := by
                  intro he
                  rw [he, h] at hg
                  cases hg
                simp [hg, lookupAssoc_insertAssoc_ne _ _ _ _ hne, h]
      have := processLambdas_grouped_mono hashOf bucket stack rest
        (zipAndUploadOne hashOf bucket stack grouped lam).1 s e hz
      simpa [processLambdas] using this

/-- Packaging leaves the `source` field of a lambda untouched. -/
theorem zipAndUploadOne_source (hashOf : String → String → String) (bucket stack : String)
    (grouped : List (String × GroupEntry)) (lam : LambdaSpec) :
    (zipAndUploadOne hashOf bucket stack grouped lam).2.source = lam.source := by
  unfold zipAndUploadOne
  cases hsrc : lam.source with
  | none => cases lam.s3SourceKey <;> cases lam.s3SourceBucket <;> simp [hsrc]
  | some src => cases hg : lookupAssoc src grouped <;> simp [hsrc, hg]

/-- A packaged lambda with a source carries exactly its cache entry's
locations. -/
theorem zipAndUploadOne_out (hashOf : String → String → String) (bucket stack : String)
    (grouped : List (String × GroupEntry)) (lam : LambdaSpec) (s : String)
    (hsrc : lam.source = some s) :
    ∃ e : GroupEntry,
      lookupAssoc s (zipAndUploadOne hashOf bucket stack grouped lam).1 = some e ∧
      (zipAndUploadOne hashOf bucket stack grouped lam).2.remote = some e.remote ∧
      (zipAndUploadOne hashOf bucket stack grouped lam).2.bucket = some e.bucket ∧
      (zipAndUploadOne hashOf bucket stack grouped lam).2.localZip = some e.localZip := by
  unfold zipAndUploadOne
  rw [hsrc]
  cases hg : lookupAssoc s grouped with
  | some g => exact ⟨g, by simp [hg], by simp [hg], by simp [hg], by simp [hg]⟩
  | none =>
      refine ⟨⟨".kes/build/" ++ getZipName lam.handler ++ ".zip",
               stack ++ "/lambdas/" ++ hashOf s (getZipName lam.handler) ++ "/" ++
                 getZipName lam.handler ++ ".zip", bucket⟩,
              ?_, by simp [hg], by simp [hg], by simp [hg]⟩
      simp [hg, lookupAssoc_insertAssoc_self]

/-- Every processed lambda that carries a source ends up with exactly the
locations of that source's final cache entry. -/
theorem processLambdas_out (hashOf : String → String → String) (bucket stack : String) :
    ∀ (lams : List LambdaSpec) (grouped : List (String × GroupEntry))
      (out : LambdaSpec) (s : String),
      out ∈ (processLambdas hashOf bucket stack grouped lams).2 →
      out.source = some s →
      ∃ e : GroupEntry,
        lookupAssoc s (processLambdas hashOf bucket stack grouped lams).1 = some e ∧
        out.remote = some e.remote ∧ out.bucket = some e.bucket ∧
        out.localZip = some e.localZip
  | [], grouped, out, s, hmem, _ => by
      simp [processLambdas] at hmem
  | lam :: rest, grouped, out, s, hmem, hsrc => by
      simp only [processLambdas, List.mem_cons] at hmem
      cases hmem with
      | inr hmem =>
          have := processLambdas_out hashOf bucket stack rest
            (zipAndUploadOne hashOf bucket stack grouped lam).1 out s hmem hsrc
          simpa [processLambdas] using this
      | inl hout =>
          subst hout
          have hlam : lam.source = some s := by
            rw [← zipAndUploadOne_source hashOf bucket stack grouped lam]
            exact hsrc
          obtain ⟨e, he, hr, hb, hl⟩ :=
            zipAndUploadOne_out hashOf bucket stack grouped lam s hlam
          refine ⟨e, ?_, hr, hb, hl⟩
          have := processLambdas_grouped_mono hashOf bucket stack rest
            (zipAndUploadOne hashOf bucket stack grouped lam).1 s e he
          simpa [processLambdas] using this

/-- Packaging ignores `fullName`: same cache, same locations. -/
theorem zipAndUploadOne_fullName (hashOf : String → String → String) (bucket stack : String)
    (grouped : List (String × GroupEntry)) (lam : LambdaSpec) (f : String) :
    zipAndUploadOne hashOf bucket stack grouped { lam with fullName := f } =
      ((zipAndUploadOne hashOf bucket stack grouped lam).1,
       { (zipAndUploadOne hashOf bucket stack grouped lam).2 with fullName := f }) := by
  unfold zipAndUploadOne
  cases hsrc : lam.source with
  | some src =>
      simp only [hsrc]
      cases hg : lookupAssoc src grouped <;> simp [hsrc, hg]
  | none =>
      simp only [hsrc]
      cases hk : lam.s3SourceKey <;> cases hb : lam.s3SourceBucket <;> simp [hsrc, hk, hb]

/-- Renaming every unit's `fullName` changes neither the cache nor any
derived location. -/
theorem processLambdas_fullName_indep (hashOf : String → String → String)
    (bucket stack : String) (f : LambdaSpec → String) :
    ∀ (lams : List LambdaSpec) (grouped : List (String × GroupEntry)),
      (processLambdas hashOf bucket stack grouped
          (lams.map (fun l => { l with fullName := f l }))).1 =
        (processLambdas hashOf bucket stack grouped lams).1 ∧
      (processLambdas hashOf bucket stack grouped
          (lams.map (fun l => { l with fullName := f l }))).2.map
            (fun l => l.remote) =
        (processLambdas hashOf bucket stack grouped lams).2.map (fun l => l.remote)
  | [], grouped => by simp [processLambdas]
  | lam :: rest, grouped => by
      have hz := zipAndUploadOne_fullName hashOf bucket stack grouped lam (f lam)
      have ih := processLambdas_fullName_indep hashOf bucket stack f rest
        (zipAndUploadOne hashOf bucket stack grouped lam).1
      simp only [processLambdas, List.map_cons, hz]
      exact ⟨ih.1, by simp [ih.2]⟩

/-- C8: two deployable units with identical source paths resolve to the
identical remote upload location (whose key embeds the artifact hash), the
identical bucket and the identical local zip — one shared packaged artifact —
and the derived locations are independent of every unit's `fullName`. -/
theorem C8_shared_source_artifact :
    (∀ (hashOf : String → String → String) (bucket stack : String)
        (lams : List LambdaSpec) (out1 out2 : LambdaSpec) (s : String),
        out1 ∈ (processLambdas hashOf bucket stack [] lams).2 →
        out2 ∈ (processLambdas hashOf bucket stack [] lams).2 →
        out1.source = some s → out2.source = some s →
        out1.remote = out2.remote ∧ out1.bucket = out2.bucket ∧
          out1.localZip = out2.localZip) ∧
    (∀ (hashOf : String → String → String) (bucket stack : String)
        (f : LambdaSpec → String) (lams : List LambdaSpec),
        (processLambdas hashOf bucket stack []
            (lams.map (fun l => { l with fullName := f l }))).2.map (fun l => l.remote) =
          (processLambdas hashOf bucket stack [] lams).2.map (fun l => l.remote)) := by
  constructor
  · intro hashOf bucket stack lams out1 out2 s h1 h2 hs1 hs2
    obtain ⟨e1, he1, hr1, hb1, hl1⟩ :=
      processLambdas_out hashOf bucket stack lams [] out1 s h1 hs1
    obtain ⟨e2, he2, hr2, hb2, hl2⟩ :=
      processLambdas_out hashOf bucket stack lams [] out2 s h2 hs2
    have hee : e1 = e2 := Option.some.inj (he1.symm.trans he2)
    subst hee
    exact ⟨hr1.trans hr2.symm, hb1.trans hb2.symm, hl1.trans hl2.symm⟩
  · intro hashOf bucket stack f lams
    exact (processLambdas_fullName_indep hashOf bucket stack f lams []).2

/-- C8 witness: both packaged units of the concrete shared-source scenario
carry the same remote key, bucket and local zip. -/
theorem C8_witness :
    (packedW.headD lamAw).remote = (packedW.getLastD lamAw).remote ∧
    (packedW.headD lamAw).bucket = (packedW.getLastD lamAw).bucket ∧
    (packedW.headD lamAw).localZip = (packedW.getLastD lamAw).localZip := by
  have h := C8_shared_source_artifact.1 (fun _ _ => "H") "bkt" "stk" [lamAw, lamBw]
      (packedW.headD lamAw) (packedW.getLastD lamAw) "./src"
      (by decide) (by decide) (by decide) (by decide)
  exact h

/-! Class-statics lemmas. -/

/-- `Object.assign(Config, ...)` fully overwrites the four derived keys: their
looked-up values depend only on the derived state, never on the class's
previous property values. -/
theorem assignStatics_lookup (σ : List (String × Value)) (st : GwState) :
    lookupV "apiMethods" (assignStatics σ st) = some (.varr st.apiMethods) ∧
    lookupV "apiResources" (assignStatics σ st) =
      some (.varr (st.apiResources.map Prod.snd)) ∧
    lookupV "apiMethodsOptions" (assignStatics σ st) =
      some (.varr (st.apiMethodsOptions.map Prod.snd)) ∧
    lookupV "apiDependencies" (assignStatics σ st) =
      some (.varr (st.apiDependencies.map
        (fun p => .vobj [("name", .vstr p.1), ("methods", .varr p.2)]))) := by
  unfold assignStatics
  refine ⟨?_, ?_, ?_, ?_⟩ <;>
    simp [lookupV, insertKV, lookupAssoc_insertAssoc_self, lookupAssoc_insertAssoc_ne]

/-- C10: with `apis` present, `configureApiGateway` assigns the derived
routing collections onto the `Config` class object and returns that class
object (not the config argument), so the derived routing set is process-global
state that a later resolution overwrites — independently of what the class
held before — while a resolution without `apis` leaves the class state
untouched; shown also on two concrete back-to-back resolutions. -/
theorem C10_routing_statics_global :
    (∀ (statics : List (String × Value)) (config : Value),
        getField config "apis" = none →
        configureApiGateway statics config = .ok (statics, .configObj)) ∧
    (∀ (statics : List (String × Value)) (config apis : Value),
        getField config "apis" = some apis → truthy apis = false →
        configureApiGateway statics config = .ok (statics, .configObj)) ∧
    (∀ (statics : List (String × Value)) (config : Value)
        (s r : List (String × Value)),
        configureApiGateway statics config = .ok (s, .classObj r) → r = s) ∧
    (∀ (σ₁ σ₂ : List (String × Value)) (config : Value)
        (s₁ s₂ r₁ r₂ : List (String × Value)),
        configureApiGateway σ₁ config = .ok (s₁, .classObj r₁) →
        configureApiGateway σ₂ config = .ok (s₂, .classObj r₂) →
        lookupV "apiMethods" s₁ = lookupV "apiMethods" s₂ ∧
        lookupV "apiResources" s₁ = lookupV "apiResources" s₂ ∧
        lookupV "apiMethodsOptions" s₁ = lookupV "apiMethodsOptions" s₂ ∧
        lookupV "apiDependencies" s₁ = lookupV "apiDependencies" s₂) ∧
    gwReturnIsClass (gwRun [] gwDocA) gwDocB = true ∧
    lookupV "apiResources" (gwRun (gwRun [] gwDocA) gwDocB) =
      lookupV "apiResources" (gwRun [] gwDocB) ∧
    lookupV "apiResources" (gwRun [] gwDocA) ≠
      lookupV "apiResources" (gwRun [] gwDocB) ∧
    configureApiGateway (gwRun [] gwDocA) plainConfig =
      .ok (gwRun [] gwDocA, .configObj) := by
  refine ⟨?_, ?_, ?_, ?_, by decide, by decide, by decide, by decide⟩
  · intro statics config h
    simp [configureApiGateway, h]
  · intro statics config apis h ht
    simp [configureApiGateway, h, ht]
  · intro statics config s r h
    unfold configureApiGateway at h
    cases hapis : getField config "apis" with
    | none =>
        rw [hapis] at h
        simp at h
    | some apis =>
        rw [hapis] at h
        dsimp only [] at h
        by_cases ht : truthy apis = true
        · rw [if_pos ht] at h
          split at h
          · exact Except.noConfusion h
          · have h2 := Except.ok.inj h
            rw [Prod.mk.injEq] at h2
            obtain ⟨h3, h4⟩ := h2
            subst h3
            exact (GwReturn.classObj.inj h4).symm
        · rw [if_neg ht] at h
          simp at h
  · intro σ₁ σ₂ config s₁ s₂ r₁ r₂ h1 h2
    unfold configureApiGateway at h1 h2
    cases hapis : getField config "apis" with
    | none =>
        rw [hapis] at h1
        simp at h1
    | some apis =>
        rw [hapis] at h1 h2
        dsimp only [] at h1 h2
        by_cases ht : truthy apis = true
        · rw [if_pos ht] at h1 h2
          split at h1
          · exact Except.noConfusion h1
          · rename_i st heq
            rw [heq] at h2
            dsimp only [] at h2
            have e1 := Except.ok.inj h1
            have e2 := Except.ok.inj h2
            rw [Prod.mk.injEq] at e1 e2
            obtain ⟨e1s, -⟩ := e1
            obtain ⟨e2s, -⟩ := e2
            subst e1s
            subst e2s
            have L1 := assignStatics_lookup σ₁ st
            have L2 := assignStatics_lookup σ₂ st
            exact ⟨L1.1.trans L2.1.symm, L1.2.1.trans L2.2.1.symm,
                   L1.2.2.1.trans L2.2.2.1.symm, L1.2.2.2.trans L2.2.2.2.symm⟩
        · rw [if_neg ht] at h1
          simp at h1

/-- C10 witness: the apis-free concrete config leaves an arbitrary concrete
class state untouched. -/
theorem C10_witness :
    configureApiGateway [("apiMethods", .varr [])] plainConfig =
      .ok ([("apiMethods", .varr [])], .configObj) :=
  C10_routing_statics_global.1 [("apiMethods", .varr [])] plainConfig (by decide)

end Kes
